import Mathlib

/-!
Verification development for the jira-mcp repository.

This file gives a shallow embedding, in Lean 4, of the authenticated access
layer and the rich-document relationship extraction engine of the repository:

* `src/services/jira-api.ts` (fetch-based `JiraApiService`): document-format
  text extraction, issue-mention extraction, issue/comment cleaning,
  relationship assembly, the retrying request client, and comment creation;
* `src/auth/OAuthStrategy.ts`: token refresh, token persistence and loading.

Machine-level conventions of the embedding:

* JavaScript objects probed by the source (`node.type`, `node.text`,
  `node.attrs?.url`, `node.content`, raw issues, raw comments, raw links)
  become Lean structures whose fields carry `Option` where the source treats
  the field as possibly absent.
* `node.content` is modelled as a plain `List AdfNode` where `[]` stands for
  an absent or empty child list. In JavaScript `if (node.content)` is a
  presence check under which an empty array is truthy, but every use site
  (recursing with `extractTextContent` / `processNode`, and the
  `description.content` guard in `cleanIssue`) computes the same value for an
  absent list as for a present empty one, so the collapse is observation
  preserving.
* JavaScript truthiness of strings (empty string is falsy) is modelled by
  `jsTruthy`; `a || b` on strings/objects by `jsOrStr` / `jsOrOpt`.
* Environment functions (the `fetch` transport, `Response.text`,
  `JSON.parse`, the filesystem, `Headers` name normalisation, and the host
  regular-expression engine) are not repository code; they are modelled by
  explicit inputs (`FetchResponse`, `TokenFileState`, write-error inputs) and
  by executable models of the two regular expressions the source uses.
* Fallible code returns `Except`/`Option`; a thrown `Error` becomes
  `Except.error` carrying the message string the source builds.
-/

/-- JavaScript truthiness of an optional string: `undefined`/absent and the
empty string are falsy, every other string is truthy. -/
def jsTruthy : Option String → Bool
  | none => false
  | some s => s != ""

/-- JavaScript truthiness of an optional number: absent and `0` are falsy. -/
def jsTruthyInt : Option Int → Bool
  | none => false
  | some i => i != 0

/-- JavaScript `a || b` on optional strings: returns `a` when `a` is truthy
(present and non-empty), otherwise `b`. -/
def jsOrStr (a b : Option String) : Option String :=
  match a with
  | some s => if s != "" then some s else b
  | none => b

/-- JavaScript `a || b` on optional objects: returns `a` when present,
otherwise `b`. -/
def jsOrOpt {α : Type} (a b : Option α) : Option α :=
  match a with
  | some x => some x
  | none => b

/-! ## Model of the two regular expressions used by `extractIssueMentions`

The source scans with the host regex engine:
`/[A-Z]+-\d+/g` over text nodes and `/\/browse\/([A-Z]+-\d+)/` over
inline-card URLs. `[A-Z]+` is greedy; a shorter run of uppercase letters can
never be followed by the literal `-` (the next character would still be an
uppercase letter), so the engine never backtracks on it and leftmost matching
with maximal-munch runs is exact. -/

/-- ASCII uppercase letter, the character class `[A-Z]`. -/
def isUpperAZ (c : Char) : Bool := 'A' ≤ c && c ≤ 'Z'

/-- ASCII digit, the character class `\d` for this source. -/
def isDigit09 (c : Char) : Bool := '0' ≤ c && c ≤ '9'

/-- Try to match `[A-Z]+-\d+` at the very start of `cs`. On success, return
the matched text together with the characters remaining after the match. -/
def tryMatchAt (cs : List Char) : Option (String × List Char) :=
  let u := cs.takeWhile isUpperAZ
  if u.isEmpty then none
  else
    match cs.drop u.length with
    | '-' :: afterDash =>
        let d := afterDash.takeWhile isDigit09
        if d.isEmpty then none
        else some (String.mk (u ++ '-' :: d), afterDash.drop d.length)
    | _ => none

/-- Fuelled scanner for all non-overlapping matches of `[A-Z]+-\d+`, the
behaviour of `text.match(/[A-Z]+-\d+/g)`. Each successful match consumes at
least one character, so fuel `cs.length` suffices. -/
def scanAux : Nat → List Char → List String
  | 0, _ => []
  | _ + 1, [] => []
  | fuel + 1, c :: rest =>
      match tryMatchAt (c :: rest) with
      | some (m, remainder) => m :: scanAux fuel remainder
      | none => scanAux fuel rest

/-- All non-overlapping matches of `/[A-Z]+-\d+/g` in left-to-right order. -/
def scanMatches (cs : List Char) : List String :=
  scanAux cs.length cs

/-- Try to match `\/browse\/([A-Z]+-\d+)` at the very start of `cs`,
returning the captured issue key. -/
def matchBrowseAt (cs : List Char) : Option String :=
  if "/browse/".data.isPrefixOf cs then
    (tryMatchAt (cs.drop "/browse/".data.length)).map (fun p => p.1)
  else none

/-- First (leftmost) match of `/\/browse\/([A-Z]+-\d+)/` in a URL, returning
the captured issue key — the behaviour of `url.match(...)` plus `match[1]`. -/
def browseMatch : List Char → Option String
  | [] => none
  | c :: rest =>
      match matchBrowseAt (c :: rest) with
      | some key => some key
      | none => browseMatch rest

/-! ## Atlassian Document Format nodes -/

/-- A formatted-text (ADF) node as the source probes it: a `type` tag, an
optional `text` payload, an optional `attrs.url`, and a child list
(see the module comment for the `[]`-as-absent convention). -/
inductive AdfNode where
  | mk (type : String) (text : Option String) (attrsUrl : Option String)
       (content : List AdfNode) : AdfNode
deriving Repr

/-- `node.type`. -/
def AdfNode.type : AdfNode → String
  | .mk t _ _ _ => t

/-- `node.text`. -/
def AdfNode.text : AdfNode → Option String
  | .mk _ tx _ _ => tx

/-- `node.attrs?.url`. -/
def AdfNode.attrsUrl : AdfNode → Option String
  | .mk _ _ u _ => u

/-- `node.content` (absent modelled as `[]`). -/
def AdfNode.content : AdfNode → List AdfNode
  | .mk _ _ _ c => c

mutual
/-- `JiraApiService.extractTextContent`: map each node of the list to its
text contribution and join with the empty separator (the source's
`content.map(...).join("")`, rendered as direct recursion). -/
def extractTextContent : List AdfNode → String
  | [] => ""
  | node :: rest => nodeText node ++ extractTextContent rest

/-- Contribution of one node inside `extractTextContent`: a text node yields
`node.text || ""`; any other node yields the recursive extraction of its
children (an absent child list, modelled `[]`, yields `""` exactly as the
source's final `return ""`). -/
def nodeText : AdfNode → String
  | AdfNode.mk ty tx _ children =>
      if ty = "text" then tx.getD "" else extractTextContent children
end

/-- The basic ADF document built by `createAdfFromBody`. -/
structure AdfDoc where
  version : Nat
  type : String
  content : List AdfNode
deriving Repr

/-- `JiraApiService.createAdfFromBody`: wrap plain text into a one-paragraph,
one-text-node document. -/
def createAdfFromBody (text : String) : AdfDoc :=
  { version := 1
    type := "doc"
    content := [AdfNode.mk "paragraph" none none
                  [AdfNode.mk "text" (some text) none []]] }

/-! ## Related-issue references and mention extraction -/

/-- The `type` discriminator of a related-issue entry. -/
inductive RefType where
  | mention
  | link
deriving DecidableEq, Repr

/-- The `source` discriminator of a related-issue entry. -/
inductive RefSource where
  | description
  | comment
deriving DecidableEq, Repr

/-- One entry of `CleanJiraIssue.relatedIssues`. -/
structure RelatedIssue where
  key : String
  summary : Option String
  type : RefType
  relationship : Option String
  source : RefSource
  commentId : Option String
deriving DecidableEq, Repr

/-- The mention record pushed by `extractIssueMentions`:
`{ key, type: "mention", source, commentId }`. -/
def mkMention (key : String) (source : RefSource) (commentId : Option String) :
    RelatedIssue :=
  { key := key, summary := none, type := RefType.mention,
    relationship := none, source := source, commentId := commentId }

/-- The inline-card check of `processNode`: an `inlineCard` node with a
truthy `attrs.url` whose URL matches the browse pattern contributes one
mention built from the captured key. -/
def inlineCardMentions (source : RefSource) (commentId : Option String)
    (ty : String) (url : Option String) : List RelatedIssue :=
  if ty = "inlineCard" then
    match url with
    | some u =>
        if u != "" then
          match browseMatch u.data with
          | some key => [mkMention key source commentId]
          | none => []
        else []
    | none => []
  else []

/-- The text-node check of `processNode`: a `text` node with truthy text
contributes one mention per issue-key match in the text. -/
def textMentions (source : RefSource) (commentId : Option String)
    (ty : String) (tx : Option String) : List RelatedIssue :=
  if ty = "text" then
    match tx with
    | some t =>
        if t != "" then
          (scanMatches t.data).map (fun key => mkMention key source commentId)
        else []
    | none => []
  else []

mutual
/-- The in-order accumulation of `processNode` over a node list inside
`extractIssueMentions` (the source pushes into a shared `mentions` array
while walking `content.forEach(processNode)`). -/
def collectFromList (source : RefSource) (commentId : Option String) :
    List AdfNode → List RelatedIssue
  | [] => []
  | n :: rest =>
      collectFromNode source commentId n ++ collectFromList source commentId rest

/-- `processNode` on one node: the inline-card check, then the text-node
check, then the recursion into children. -/
def collectFromNode (source : RefSource) (commentId : Option String) :
    AdfNode → List RelatedIssue
  | AdfNode.mk ty tx url children =>
      inlineCardMentions source commentId ty url ++
      textMentions source commentId ty tx ++
      collectFromList source commentId children
end

/-- One step of JavaScript `Map.set` on an association-by-`key` list: an
existing key keeps its position but takes the new value; a new key is
appended. -/
def insertJs (m : RelatedIssue) (acc : List RelatedIssue) : List RelatedIssue :=
  if acc.any (fun x => x.key == m.key) then
    acc.map (fun x => if x.key == m.key then m else x)
  else acc ++ [m]

/-- `[...new Map(mentions.map(m => [m.key, m])).values()]`: deduplicate by
`key`, keeping first-occurrence order and the last-seen value. -/
def dedupByKey (ms : List RelatedIssue) : List RelatedIssue :=
  ms.foldl (fun acc m => insertJs m acc) []

/-- `JiraApiService.extractIssueMentions`: collect mentions in document order,
then remove duplicates via the JavaScript `Map` construction. -/
def extractIssueMentions (content : List AdfNode) (source : RefSource)
    (commentId : Option String) : List RelatedIssue :=
  dedupByKey (collectFromList source commentId content)

/-! ## Issue and comment cleaning -/

/-- The raw comment shape consumed by `cleanComment`. `bodyContent` models
`comment.body?.content` (absent body or absent content collapse to `none`). -/
structure RawComment where
  id : String
  bodyContent : Option (List AdfNode)
  authorDisplayName : Option String
  created : String
  updated : String
deriving Repr

/-- The cleaned comment record. -/
structure CleanComment where
  id : String
  body : String
  author : Option String
  created : String
  updated : String
  mentions : List RelatedIssue
deriving DecidableEq, Repr

/-- `JiraApiService.cleanComment`. -/
def cleanComment (comment : RawComment) : CleanComment :=
  { id := comment.id
    body := match comment.bodyContent with
            | some content => extractTextContent content
            | none => ""
    author := comment.authorDisplayName
    created := comment.created
    updated := comment.updated
    mentions := match comment.bodyContent with
                | some content =>
                    extractIssueMentions content RefSource.comment (some comment.id)
                | none => [] }

/-- The linked-issue object of a formal link (`link.inwardIssue` /
`link.outwardIssue`): its `key` and `fields?.summary`. -/
structure RawLinkedIssue where
  key : String
  fieldsSummary : Option String
deriving DecidableEq, Repr

/-- One entry of `issue.fields.issuelinks`: `typeInward`/`typeOutward` model
`link.type.inward` / `link.type.outward`. -/
structure RawIssueLink where
  inwardIssue : Option RawLinkedIssue
  outwardIssue : Option RawLinkedIssue
  typeInward : Option String
  typeOutward : Option String
deriving DecidableEq, Repr

/-- The 1:1 transform of a formal link inside `cleanIssue`:
`linkedIssue = link.inwardIssue || link.outwardIssue`,
`relationship = link.type.inward || link.type.outward`. When both sides of
the link are absent the source would throw a `TypeError` reading
`linkedIssue.key`; that degenerate shape (never produced by the remote API)
is modelled with an empty key/summary instead of an exception. -/
def linkToRef (link : RawIssueLink) : RelatedIssue :=
  let linkedIssue := jsOrOpt link.inwardIssue link.outwardIssue
  { key := (linkedIssue.map (fun i => i.key)).getD ""
    summary := linkedIssue.bind (fun i => i.fieldsSummary)
    type := RefType.link
    relationship := jsOrStr link.typeInward link.typeOutward
    source := RefSource.description
    commentId := none }

/-- A raw `{id, key, fields?.summary}` triple (parent or subtask). -/
structure RawEntityRef where
  id : String
  key : String
  fieldsSummary : Option String
deriving DecidableEq, Repr

/-- The raw issue shape consumed by `cleanIssue`. `descriptionContent` models
`issue.fields?.description?.content`; `customfield10014` is the Epic Link
field. -/
structure RawIssue where
  id : String
  key : String
  summary : Option String
  statusName : Option String
  created : Option String
  updated : Option String
  descriptionContent : Option (List AdfNode)
  issuelinks : Option (List RawIssueLink)
  parent : Option RawEntityRef
  customfield10014 : Option String
  subtasks : Option (List RawEntityRef)
deriving Repr

/-- An `{id, key, summary?}` reference inside a cleaned issue. -/
structure IssueRef where
  id : String
  key : String
  summary : Option String
deriving DecidableEq, Repr

/-- The cleaned issue record returned to the protocol layer. -/
structure CleanJiraIssue where
  id : String
  key : String
  summary : Option String
  status : Option String
  created : Option String
  updated : Option String
  description : String
  relatedIssues : List RelatedIssue
  parent : Option IssueRef
  epicLink : Option IssueRef
  children : Option (List IssueRef)
  comments : Option (List CleanComment)
deriving Repr

/-- `JiraApiService.cleanIssue`. The source initialises `relatedIssues` to
`[]`, overwrites it with the description mentions when they are non-empty,
then appends the mapped formal links when `issuelinks` is non-empty; each
remaining conditional mutation targets a distinct field, so the sequential
mutations are rendered field by field. -/
def cleanIssue (issue : RawIssue) : CleanJiraIssue :=
  { id := issue.id
    key := issue.key
    summary := issue.summary
    status := issue.statusName
    created := issue.created
    updated := issue.updated
    description := match issue.descriptionContent with
                   | some content => extractTextContent content
                   | none => ""
    relatedIssues :=
      (match issue.descriptionContent with
       | some content =>
           let mentions := extractIssueMentions content RefSource.description none
           if mentions.length > 0 then mentions else []
       | none => []) ++
      (match issue.issuelinks with
       | some links =>
           if links.length > 0 then links.map linkToRef else []
       | none => [])
    parent := match issue.parent with
              | some p => some { id := p.id, key := p.key, summary := p.fieldsSummary }
              | none => none
    epicLink :=
      if jsTruthy issue.customfield10014 then
        some { id := issue.customfield10014.getD ""
               key := issue.customfield10014.getD ""
               summary := none }
      else none
    children := match issue.subtasks with
                | some subtasks =>
                    if subtasks.length > 0 then
                      some (subtasks.map (fun s =>
                        { id := s.id, key := s.key, summary := s.fieldsSummary }))
                    else none
                | none => none
    comments := none }

/-- The description-derived mention group of `cleanIssue` (lines 202-211 of
the service), as a standalone value for stating assembly order. -/
def descriptionMentions (issue : RawIssue) : List RelatedIssue :=
  match issue.descriptionContent with
  | some content => extractIssueMentions content RefSource.description none
  | none => []

/-- The formal-link group of `cleanIssue` (lines 213-231 of the service), as
a standalone value for stating assembly order. -/
def formalLinkRefs (issue : RawIssue) : List RelatedIssue :=
  (issue.issuelinks.getD []).map linkToRef

/-- The pure assembly step of `JiraApiService.getIssueWithComments` once both
fetches returned (lines 451-462): clean the issue and the comments, append
every comment's mentions to `relatedIssues`, and attach the comments. -/
def assembleIssueWithComments (rawIssue : RawIssue)
    (rawComments : List RawComment) : CleanJiraIssue :=
  let issue := cleanIssue rawIssue
  let comments := rawComments.map cleanComment
  let commentMentions := comments.flatMap (fun c => c.mentions)
  { issue with relatedIssues := issue.relatedIssues ++ commentMentions
               comments := some comments }

/-! ## The resilient request client -/

/-- The extracted-message half of `JiraApiService.handleFetchError`
(lines 42-77) reads the response body via the environment (`response.text()`,
`JSON.parse`); its result is supplied as the `extracted` input. This function
is the final message assembly of lines 79-83. -/
def handleFetchErrorMessage (status : Nat) (extracted : String) : String :=
  "JIRA API Error" ++ (if extracted != "" then ": " ++ extracted else "") ++
    " (Status: " ++ toString status ++ ")"

/-- One HTTP exchange as the client observes it: the status, the error
message the body would yield through `handleFetchError`'s extraction, and the
parsed JSON body for the success path. -/
structure FetchResponse (T : Type) where
  status : Nat
  errMessage : String
  jsonBody : T
deriving Repr

/-- `Response.ok`: status in the inclusive range 200-299. -/
def FetchResponse.ok {T : Type} (r : FetchResponse T) : Bool :=
  200 ≤ r.status && r.status ≤ 299

/-- Outcome of `handleTokenExpiration()` inside the retry block. -/
inductive RefreshResult where
  | refreshOk (newAccessToken : String)
  | refreshErr (message : String)
deriving Repr

/-- `JiraApiService.fetchWithRetry` (lines 271-336), with transport outcomes
supplied as inputs: `response` is the first attempt, and when the 401/403
OAuth retry path runs, `refresh` is the token-refresh outcome and
`retryResponse` the reissued attempt. The `try { ... } catch` around the
refresh-and-retry block swallows every error thrown inside it — including
the `handleFetchError(retryResponse)` throw — and falls through to the
common error handling of the original response (lines 325-333). -/
def fetchWithRetry {T : Type} (oauthWithRefresh : Bool)
    (response : FetchResponse T) (refresh : RefreshResult)
    (retryResponse : FetchResponse T) (isRetry : Bool) : Except String T :=
  if !response.ok && (response.status == 401 || response.status == 403)
      && !isRetry then
    if oauthWithRefresh then
      let tryBlock : Except String T :=
        match refresh with
        | RefreshResult.refreshErr e => Except.error e
        | RefreshResult.refreshOk _ =>
            if !retryResponse.ok then
              Except.error
                (handleFetchErrorMessage retryResponse.status retryResponse.errMessage)
            else Except.ok retryResponse.jsonBody
      match tryBlock with
      | Except.ok v => Except.ok v
      | Except.error _ =>
          if !response.ok then
            Except.error (handleFetchErrorMessage response.status response.errMessage)
          else Except.ok response.jsonBody
    else
      if !response.ok then
        Except.error (handleFetchErrorMessage response.status response.errMessage)
      else Except.ok response.jsonBody
  else
    if !response.ok then
      Except.error (handleFetchErrorMessage response.status response.errMessage)
    else Except.ok response.jsonBody

/-! ## Header merging in the request client -/

/-- ASCII lowercasing of one character (model of the `Headers` header-name
normalisation; header names are ASCII). -/
def lowerChar (c : Char) : Char :=
  if 'A' ≤ c && c ≤ 'Z' then Char.ofNat (c.toNat + 32) else c

/-- ASCII lowercasing of a header name. -/
def lowerName (s : String) : String := String.mk (s.data.map lowerChar)

/-- `Headers.set` over an association list with `Headers`' lowercase name
normalisation: an existing name keeps its position and takes the new value,
a new name is appended. -/
def headerSet (hs : List (String × String)) (k v : String) :
    List (String × String) :=
  let k2 := lowerName k
  if hs.any (fun p => p.1 == k2) then
    hs.map (fun p => if p.1 == k2 then (p.1, v) else p)
  else hs ++ [(k2, v)]

/-- `Headers.get` with lowercase name normalisation. -/
def headerGet (hs : List (String × String)) (k : String) : Option String :=
  (hs.find? (fun p => p.1 == lowerName k)).map (fun p => p.2)

/-- The first-attempt merge of `fetchWithRetry` (lines 275-281): every
caller-supplied header is `set` over the strategy headers, with no
exclusion. -/
def mergeHeadersFirstAttempt (strategyHeaders callerHeaders :
    List (String × String)) : List (String × String) :=
  callerHeaders.foldl (fun hs kv => headerSet hs kv.1 kv.2) strategyHeaders

/-- The fresh header set rebuilt after a refresh (lines 297-302). -/
def rebuildRetryHeaders (newAccessToken : String) : List (String × String) :=
  [("authorization", "Bearer " ++ newAccessToken),
   ("accept", "application/json"),
   ("content-type", "application/json")]

/-- The retry-attempt merge (lines 304-312): caller-supplied headers are
`set` over the fresh headers, skipping any caller header whose lowercased
name is `authorization`. -/
def mergeHeadersRetry (newHeaders callerHeaders : List (String × String)) :
    List (String × String) :=
  callerHeaders.foldl
    (fun hs kv =>
      if lowerName kv.1 == "authorization" then hs else headerSet hs kv.1 kv.2)
    newHeaders

/-! ## The 404 translation of `getIssueWithComments` -/

/-- JavaScript `String.includes`: substring containment. -/
def containsStr (s pat : String) : Bool :=
  decide (pat.data <:+: s.data)

/-- The catch clause of `JiraApiService.getIssueWithComments`
(lines 440-449): an error whose message contains `"(Status: 404)"` is
replaced by the issue-not-found error; any other error is rethrown. The
result is the message of the error the caller sees. -/
def recoverIssueFetchError (issueId : String) (errorMessage : String) : String :=
  if containsStr errorMessage "(Status: 404)" then
    "Issue not found: " ++ issueId
  else errorMessage

/-! ## OAuth token storage and refresh -/

/-- The parsed content of the token file, and also the shape written back by
`storeTokens`. TypeScript declares `access_token`/`refresh_token` as
required, but a file parsed at runtime can lack them, so every field is
optional here and `loadStoredTokens` validates. -/
structure ParsedTokens where
  access_token : Option String
  refresh_token : Option String
  expires_at : Option Int
  cloud_id : Option String
  cloud_id_expires_at : Option Int
deriving DecidableEq, Repr

/-- The observable state of the token file as `loadStoredTokens` encounters
it: missing (`existsSync` false), unreadable (`readFileSync` throws),
unparsable (`JSON.parse` throws, or a non-object whose property access
throws), or parsed to a token object. -/
inductive TokenFileState where
  | missing
  | readError
  | parseError
  | parsed (tokens : ParsedTokens)
deriving DecidableEq, Repr

/-- `OAuthStrategy.loadStoredTokens` (lines 289-307): the whole body sits in
a `try` whose `catch` returns `null`, so the embedding is total and returns
`none` on every failure; a parsed object is validated for truthy
`access_token` and `refresh_token`. -/
def loadStoredTokens : TokenFileState → Option ParsedTokens
  | TokenFileState.missing => none
  | TokenFileState.readError => none
  | TokenFileState.parseError => none
  | TokenFileState.parsed tokens =>
      if !(jsTruthy tokens.access_token) || !(jsTruthy tokens.refresh_token) then
        none
      else some tokens

/-- Modelled from the spec (section 4.2): the load contract — never throw,
return the stored state exactly when the file parses to an object with both
token fields non-empty, and absent state otherwise. Stated from the spec's
words for comparison with `loadStoredTokens`. -/
def specLoadContract : TokenFileState → Option ParsedTokens
  | TokenFileState.parsed tokens =>
      if jsTruthy tokens.access_token && jsTruthy tokens.refresh_token then
        some tokens
      else none
  | _ => none

/-- The parsed body of a successful token-endpoint response
(`JSON.parse(responseText)` as `refreshAndStoreTokens` probes it). -/
structure TokenData where
  access_token : Option String
  refresh_token : Option String
  expires_in : Option Int
deriving DecidableEq, Repr

/-- `OAuthStrategy.storeTokens` (lines 312-325): the filesystem write is an
environment effect, supplied as `writeError` (`none` when the write
succeeds). On success the token file now holds `tokens` (returned as the
post-state); on failure the source throws
`Failed to store tokens: ${error}`. -/
def storeTokens (writeError : Option String) (tokens : ParsedTokens) :
    Except String ParsedTokens :=
  match writeError with
  | some e => Except.error ("Failed to store tokens: " ++ e)
  | none => Except.ok tokens

/-- `OAuthStrategy.refreshAndStoreTokens` (lines 215-284). `tokenResponse`
models the outcome of lines 224-258 (the network exchange, the error-message
extraction for a non-ok status, and `JSON.parse` of the body): `Except.error`
for a failed exchange or unparsable body, `Except.ok` for a parsed body.
Lines 260-276 are embedded directly; the outer `catch` re-wraps every thrown
message. On success the result carries the returned access token together
with the token-file post-state, which was written by `storeTokens` before
the return. -/
def refreshAndStoreTokens (tokenResponse : Except String TokenData)
    (writeError : Option String) (now : Int) :
    Except String (String × ParsedTokens) :=
  let inner : Except String (String × ParsedTokens) :=
    match tokenResponse with
    | Except.error e => Except.error e
    | Except.ok tokenData =>
        if !(jsTruthy tokenData.access_token) || !(jsTruthy tokenData.refresh_token) then
          Except.error "Incomplete token data received from OAuth endpoint"
        else
          let expiresAt : Option Int :=
            if jsTruthyInt tokenData.expires_in then
              some (now + tokenData.expires_in.getD 0 * 1000 - 60000)
            else none
          let tokensToStore : ParsedTokens :=
            { access_token := tokenData.access_token
              refresh_token := tokenData.refresh_token
              expires_at := expiresAt
              cloud_id := none
              cloud_id_expires_at := none }
          match storeTokens writeError tokensToStore with
          | Except.error e => Except.error e
          | Except.ok stored => Except.ok (tokenData.access_token.getD "", stored)
  match inner with
  | Except.error e => Except.error ("OAuth token refresh failed: " ++ e)
  | Except.ok v => Except.ok v

/-! ## Comment creation -/

/-- The service response to a comment creation, as `addCommentToIssue` reads
it back. -/
structure JiraCommentResponse where
  id : String
  authorDisplayName : String
  body : AdfDoc
  created : String
  updated : String
deriving Repr

/-- The cleaned comment-creation response. -/
structure AddCommentResponse where
  id : String
  author : String
  created : String
  updated : String
  body : String
deriving DecidableEq, Repr

/-- The response-cleaning step of `JiraApiService.addCommentToIssue`
(lines 670-677): extract plain text from the returned document. -/
def cleanAddCommentResponse (response : JiraCommentResponse) : AddCommentResponse :=
  { id := response.id
    author := response.authorDisplayName
    created := response.created
    updated := response.updated
    body := extractTextContent response.body.content }

/-! ## Specification-side comparison functions -/

/-- Modelled from the spec (section 4.4): first-occurrence key order. `seen`
carries the keys already emitted. -/
def firstOcc (seen : List String) : List String → List String
  | [] => []
  | k :: ks =>
      if seen.contains k then firstOcc seen ks
      else k :: firstOcc (k :: seen) ks

/-- Modelled from the spec (section 8): separator-free concatenation of a
list of strings. -/
def specConcat : List String → String
  | [] => ""
  | s :: rest => s ++ specConcat rest

mutual
/-- Modelled from the spec (section 8): the leaf text values of a forest in
document order, depth-first. -/
def specLeafTextsForest : List AdfNode → List String
  | [] => []
  | n :: rest => specLeafTextsTree n ++ specLeafTextsForest rest

/-- Leaf text values of one tree: a text node is a leaf contributing
`node.text || ""`; any other node contributes its children's leaves. -/
def specLeafTextsTree : AdfNode → List String
  | AdfNode.mk ty tx _ children =>
      if ty = "text" then [tx.getD ""] else specLeafTextsForest children
end

mutual
/-- The spec's guard for the round-trip property: a forest consisting only of
text leaves and container (paragraph-like) nodes. -/
def textParaForest : List AdfNode → Bool
  | [] => true
  | n :: rest => textParaTree n && textParaForest rest

/-- One tree of text and container nodes: a text node is a leaf; any other
node is a container whose children are again such trees. -/
def textParaTree : AdfNode → Bool
  | AdfNode.mk ty _ _ children =>
      if ty = "text" then children.isEmpty else textParaForest children
end

/-! ## Concrete inputs used by counterexamples and witnesses -/

/-- A description body mentioning the issue key TEST-3 in free text. -/
def c5Description : List AdfNode :=
  [AdfNode.mk "paragraph" none none
     [AdfNode.mk "text" (some "relates to TEST-3") none []]]

/-- A formal link whose inward side is TEST-2 with inward label
"is blocked by". -/
def c5Link : RawIssueLink :=
  { inwardIssue := some { key := "TEST-2", fieldsSummary := some "Blocking issue" }
    outwardIssue := none
    typeInward := some "is blocked by"
    typeOutward := some "blocks" }

/-- The mention entry extracted from `c5Description`. -/
def c5Mention : RelatedIssue :=
  mkMention "TEST-3" RefSource.description none

/-- A raw issue with one formal "is blocked by" link and a description
mentioning the different issue key TEST-3. -/
def c5RawIssue : RawIssue :=
  { id := "10001"
    key := "TEST-1"
    summary := some "Root issue"
    statusName := some "Open"
    created := none
    updated := none
    descriptionContent := some c5Description
    issuelinks := some [c5Link]
    parent := none
    customfield10014 := none
    subtasks := none }

/-- Strategy-provided headers for the merge counterexample: the
authentication header plus the fixed accept/content-type pair. -/
def exStrategyHeaders : List (String × String) :=
  [("authorization", "Bearer strategy-token"),
   ("accept", "application/json"),
   ("content-type", "application/json")]

/-- Caller-supplied headers carrying their own authorization header. -/
def exCallerHeaders : List (String × String) :=
  [("Authorization", "Basic caller-credentials")]

/-- A text/paragraph-only forest for the text-extraction witness. -/
def exC6Forest : List AdfNode :=
  [AdfNode.mk "paragraph" none none
     [AdfNode.mk "text" (some "Hello ") none [],
      AdfNode.mk "text" (some "world") none []],
   AdfNode.mk "paragraph" none none
     [AdfNode.mk "text" (some "!") none []]]

/-- A mention-extraction input: two inline-card nodes pointing at the same
issue key and one free-text occurrence of that key, plus one other key. -/
def exC7Forest : List AdfNode :=
  [AdfNode.mk "paragraph" none none
     [AdfNode.mk "inlineCard" none (some "https://x.atlassian.net/browse/TEST-2") [],
      AdfNode.mk "text" (some "see TEST-2 and TEST-4") none [],
      AdfNode.mk "inlineCard" none (some "https://x.atlassian.net/browse/TEST-2") []]]

/-- A parsed token-endpoint body carrying a fresh access+refresh pair. -/
def exTokenData : TokenData :=
  { access_token := some "new-access", refresh_token := some "new-refresh"
    expires_in := some 3600 }

/-- The comment-creation response in which the service echoes back exactly
the document submitted for the text "Deployed to staging". -/
def exCommentResponse : JiraCommentResponse :=
  { id := "20001"
    authorDisplayName := "Dana"
    body := createAdfFromBody "Deployed to staging"
    created := "2024-01-01T00:00:00Z"
    updated := "2024-01-01T00:00:00Z" }

/-- A raw comment for the assembly witness: body mentions TEST-9. -/
def exRawComment : RawComment :=
  { id := "30001"
    bodyContent := some [AdfNode.mk "paragraph" none none
       [AdfNode.mk "text" (some "dup of TEST-9") none []]]
    authorDisplayName := some "Riley"
    created := "c"
    updated := "u" }

/-! # Helper lemmas -/

theorem specConcat_append (a b : List String) :
    specConcat (a ++ b) = specConcat a ++ specConcat b := by
  induction a with
  | nil => simp [specConcat]
  | cons s rest ih =>
      simp only [List.cons_append, specConcat, List.append_eq]
      rw [ih]
      exact (String.append_assoc s (specConcat rest) (specConcat b)).symm

mutual
theorem extractText_forest_concat : ∀ l : List AdfNode, textParaForest l = true →
    extractTextContent l = specConcat (specLeafTextsForest l)
  | [], _ => rfl
  | n :: rest, h => by
      have hn : textParaTree n = true := by
        have h2 := h
        simp only [textParaForest, Bool.and_eq_true] at h2
        exact h2.1
      have hr : textParaForest rest = true := by
        have h2 := h
        simp only [textParaForest, Bool.and_eq_true] at h2
        exact h2.2
      calc extractTextContent (n :: rest)
          = nodeText n ++ extractTextContent rest := rfl
        _ = specConcat (specLeafTextsTree n) ++ specConcat (specLeafTextsForest rest) := by
              rw [extractText_tree_concat n hn, extractText_forest_concat rest hr]
        _ = specConcat (specLeafTextsTree n ++ specLeafTextsForest rest) :=
              (specConcat_append _ _).symm
        _ = specConcat (specLeafTextsForest (n :: rest)) := rfl

theorem extractText_tree_concat : ∀ n : AdfNode, textParaTree n = true →
    nodeText n = specConcat (specLeafTextsTree n)
  | AdfNode.mk ty tx u children, h => by
      by_cases hty : ty = "text"
      · simp only [nodeText, specLeafTextsTree, hty, if_true, specConcat,
          String.append_empty]
      · have hch : textParaForest children = true := by
          simp only [textParaTree, hty, if_false] at h
          exact h
        simp only [nodeText, specLeafTextsTree, hty, if_false]
        exact extractText_forest_concat children hch
end

/-- Round-trip of the one-paragraph document builder through text
extraction. -/
theorem adf_roundtrip (t : String) :
    extractTextContent (createAdfFromBody t).content = t := by
  show nodeText (AdfNode.mk "paragraph" none none [AdfNode.mk "text" (some t) none []])
      ++ extractTextContent [] = t
  simp [nodeText, extractTextContent, String.append_empty]

mutual
theorem collectFromList_fields : ∀ (src : RefSource) (cid : Option String)
    (l : List AdfNode) (m : RelatedIssue),
    m ∈ collectFromList src cid l → m = mkMention m.key src cid
  | _, _, [], m, h => absurd h (List.not_mem_nil m)
  | src, cid, n :: rest, m, h => by
      rw [collectFromList] at h
      rcases List.mem_append.mp h with h1 | h2
      · exact collectFromNode_fields src cid n m h1
      · exact collectFromList_fields src cid rest m h2

theorem collectFromNode_fields : ∀ (src : RefSource) (cid : Option String)
    (n : AdfNode) (m : RelatedIssue),
    m ∈ collectFromNode src cid n → m = mkMention m.key src cid
  | src, cid, AdfNode.mk ty tx url children, m, h => by
      rw [collectFromNode] at h
      rcases List.mem_append.mp h with h1 | h2
      · have hform : ∃ k, m = mkMention k src cid := by
          rcases List.mem_append.mp h1 with ha | hb
          · unfold inlineCardMentions at ha
            split at ha
            · split at ha
              · split at ha
                · split at ha
                  · exact ⟨_, List.mem_singleton.mp ha⟩
                  · exact absurd ha (List.not_mem_nil m)
                · exact absurd ha (List.not_mem_nil m)
              · exact absurd ha (List.not_mem_nil m)
            · exact absurd ha (List.not_mem_nil m)
          · unfold textMentions at hb
            split at hb
            · split at hb
              · split at hb
                · rcases List.mem_map.mp hb with ⟨k, _, hk⟩
                  exact ⟨k, hk.symm⟩
                · exact absurd hb (List.not_mem_nil m)
              · exact absurd hb (List.not_mem_nil m)
            · exact absurd hb (List.not_mem_nil m)
        rcases hform with ⟨k, hk⟩
        subst hk
        rfl
      · exact collectFromList_fields src cid children m h2
end

theorem insertJs_mem (x m : RelatedIssue) (acc : List RelatedIssue)
    (h : x ∈ insertJs m acc) : x = m ∨ x ∈ acc := by
  unfold insertJs at h
  split at h
  · rcases List.mem_map.mp h with ⟨y, hy, hxy⟩
    by_cases hk : (y.key == m.key) = true
    · left
      rw [← hxy, if_pos hk]
    · right
      rw [← hxy, if_neg hk]
      exact hy
  · rcases List.mem_append.mp h with h1 | h2
    · right; exact h1
    · left; exact List.mem_singleton.mp h2

theorem foldl_insert_mem (ms : List RelatedIssue) :
    ∀ (acc : List RelatedIssue) (x : RelatedIssue),
    x ∈ List.foldl (fun a m => insertJs m a) acc ms → x ∈ acc ∨ x ∈ ms := by
  induction ms with
  | nil => intro acc x h; exact Or.inl h
  | cons m rest ih =>
      intro acc x h
      rw [List.foldl_cons] at h
      rcases ih (insertJs m acc) x h with h1 | h2
      · rcases insertJs_mem x m acc h1 with he | ha
        · exact Or.inr (he ▸ List.mem_cons_self m rest)
        · exact Or.inl ha
      · exact Or.inr (List.mem_cons_of_mem m h2)

theorem dedupByKey_mem (ms : List RelatedIssue) (x : RelatedIssue)
    (h : x ∈ dedupByKey ms) : x ∈ ms := by
  rcases foldl_insert_mem ms [] x h with h1 | h2
  · exact absurd h1 (List.not_mem_nil x)
  · exact h2

theorem extractIssueMentions_mem_fields (content : List AdfNode)
    (src : RefSource) (cid : Option String) (m : RelatedIssue)
    (h : m ∈ extractIssueMentions content src cid) : m = mkMention m.key src cid :=
  collectFromList_fields src cid content m
    (dedupByKey_mem (collectFromList src cid content) m h)

theorem anyKey_eq_contains (acc : List RelatedIssue) (k : String) :
    acc.any (fun x => x.key == k) = (acc.map (fun x => x.key)).contains k := by
  induction acc with
  | nil => rfl
  | cons a as ih =>
      simp only [List.any_cons, List.map_cons, List.contains_cons, ih]
      cases h1 : a.key == k <;> cases h2 : k == a.key <;> simp_all [beq_iff_eq]

theorem insertJs_map_key (m : RelatedIssue) (acc : List RelatedIssue) :
    (insertJs m acc).map (fun x => x.key) =
      if (acc.map (fun x => x.key)).contains m.key then acc.map (fun x => x.key)
      else acc.map (fun x => x.key) ++ [m.key] := by
  unfold insertJs
  rw [← anyKey_eq_contains]
  by_cases h : acc.any (fun x => x.key == m.key)
  · rw [if_pos h, if_pos h, List.map_map]
    have hfun : ((fun x : RelatedIssue => x.key) ∘
        fun x => if (x.key == m.key) = true then m else x) =
        fun x : RelatedIssue => x.key := by
      funext x
      by_cases hk : (x.key == m.key) = true
      · simp only [Function.comp_apply, if_pos hk]
        exact (beq_iff_eq.mp hk).symm
      · simp only [Function.comp_apply, if_neg hk]
    rw [hfun]
  · rw [if_neg h, if_neg h, List.map_append]
    rfl

theorem firstOcc_cons (seen : List String) (k : String) (ks : List String) :
    firstOcc seen (k :: ks) =
      if seen.contains k then firstOcc seen ks
      else k :: firstOcc (k :: seen) ks := rfl

theorem contains_append_single (l : List String) (k x : String) :
    (l ++ [k]).contains x = (k :: l).contains x := by
  induction l with
  | nil => rfl
  | cons a as ih =>
      simp only [List.cons_append, List.contains_cons, ih]
      cases h1 : x == a <;> cases h2 : x == k <;> simp [h1, h2]

theorem firstOcc_congr (l : List String) : ∀ (s1 s2 : List String),
    (∀ x, s1.contains x = s2.contains x) → firstOcc s1 l = firstOcc s2 l := by
  induction l with
  | nil => intro s1 s2 _; rfl
  | cons k ks ih =>
      intro s1 s2 hm
      rw [firstOcc_cons, firstOcc_cons, hm k]
      by_cases h : s2.contains k
      · rw [if_pos h, if_pos h]
        exact ih s1 s2 hm
      · rw [if_neg h, if_neg h]
        rw [ih (k :: s1) (k :: s2)
          (by intro x; simp only [List.contains_cons]; rw [hm x])]

theorem foldl_insert_map_key (ms : List RelatedIssue) :
    ∀ (acc : List RelatedIssue),
    (List.foldl (fun a m => insertJs m a) acc ms).map (fun x => x.key)
      = acc.map (fun x => x.key) ++
          firstOcc (acc.map (fun x => x.key)) (ms.map (fun x => x.key)) := by
  induction ms with
  | nil => intro acc; simp [firstOcc]
  | cons m rest ih =>
      intro acc
      rw [List.foldl_cons, ih (insertJs m acc), insertJs_map_key, List.map_cons,
        firstOcc_cons]
      by_cases h : (acc.map (fun x => x.key)).contains m.key
      · simp only [if_pos h]
      · simp only [if_neg h]
        rw [firstOcc_congr (rest.map (fun x => x.key))
              (acc.map (fun x => x.key) ++ [m.key])
              (m.key :: acc.map (fun x => x.key))
              (fun x => contains_append_single _ m.key x)]
        rw [List.append_assoc]
        rfl

theorem firstOcc_nodup_avoid (l : List String) : ∀ (seen : List String),
    (firstOcc seen l).Nodup ∧ ∀ k ∈ firstOcc seen l, seen.contains k = false := by
  induction l with
  | nil =>
      intro seen
      exact ⟨List.nodup_nil, by intro k h; exact absurd h (List.not_mem_nil k)⟩
  | cons k ks ih =>
      intro seen
      unfold firstOcc
      by_cases h : seen.contains k
      · rw [if_pos h]
        exact ih seen
      · rw [if_neg h]
        obtain ⟨hnd, havoid⟩ := ih (k :: seen)
        constructor
        · rw [List.nodup_cons]
          refine ⟨?_, hnd⟩
          intro hk
          have := havoid k hk
          simp [List.contains_cons] at this
        · intro x hx
          rcases List.mem_cons.mp hx with hx | hx
          · subst hx
            exact Bool.of_not_eq_true h
          · have := havoid x hx
            simp only [List.contains_cons, Bool.or_eq_false_iff] at this
            exact this.2

theorem dedupByKey_map_key (ms : List RelatedIssue) :
    (dedupByKey ms).map (fun x => x.key)
      = firstOcc [] (ms.map (fun x => x.key)) := by
  have h := foldl_insert_map_key ms []
  simpa [dedupByKey] using h

theorem extractIssueMentions_keys (content : List AdfNode) (src : RefSource)
    (cid : Option String) :
    (extractIssueMentions content src cid).map (fun x => x.key)
      = firstOcc [] ((collectFromList src cid content).map (fun x => x.key)) :=
  dedupByKey_map_key (collectFromList src cid content)

theorem extractIssueMentions_keys_nodup (content : List AdfNode)
    (src : RefSource) (cid : Option String) :
    ((extractIssueMentions content src cid).map (fun x => x.key)).Nodup := by
  rw [extractIssueMentions_keys]
  exact (firstOcc_nodup_avoid
    ((collectFromList src cid content).map (fun x => x.key)) []).1

theorem extractIssueMentions_all_fields (content : List AdfNode)
    (src : RefSource) (cid : Option String) :
    (extractIssueMentions content src cid).all (fun m =>
      decide (m.type = RefType.mention) && decide (m.source = src)
        && (m.commentId == cid)) = true := by
  rw [List.all_eq_true]
  intro m hm
  have hfields := extractIssueMentions_mem_fields content src cid m hm
  rw [hfields]
  simp [mkMention]

/-- The relationship list built by `cleanIssue` is exactly the
description-mention group followed by the formal-link group. -/
theorem cleanIssue_relatedIssues (issue : RawIssue) :
    (cleanIssue issue).relatedIssues
      = descriptionMentions issue ++ formalLinkRefs issue := by
  show (match issue.descriptionContent with
        | some content =>
            let mentions := extractIssueMentions content RefSource.description none
            if mentions.length > 0 then mentions else []
        | none => []) ++
       (match issue.issuelinks with
        | some links => if links.length > 0 then links.map linkToRef else []
        | none => [])
      = descriptionMentions issue ++ formalLinkRefs issue
  unfold descriptionMentions formalLinkRefs
  congr 1
  · cases hd : issue.descriptionContent with
    | none => rfl
    | some content =>
        simp only []
        by_cases hl : (extractIssueMentions content RefSource.description none).length > 0
        · rw [if_pos hl]
        · rw [if_neg hl]
          have hempty : extractIssueMentions content RefSource.description none = [] :=
            List.length_eq_zero.mp (Nat.eq_zero_of_not_pos hl)
          rw [hempty]
  · cases hl : issue.issuelinks with
    | none => rfl
    | some links =>
        simp only [Option.getD_some]
        by_cases hlen : links.length > 0
        · rw [if_pos hlen]
        · rw [if_neg hlen]
          have hempty : links = [] := List.length_eq_zero.mp (Nat.eq_zero_of_not_pos hlen)
          rw [hempty, List.map_nil]

/-- The relationship list after the comment-merge step of
`getIssueWithComments`. -/
theorem assembleIssueWithComments_relatedIssues (rawIssue : RawIssue)
    (rawComments : List RawComment) :
    (assembleIssueWithComments rawIssue rawComments).relatedIssues
      = (cleanIssue rawIssue).relatedIssues
          ++ (rawComments.map cleanComment).flatMap (fun c => c.mentions) := rfl

theorem find?_after_set (hs : List (String × String)) (k2 v q2 : String)
    (h : k2 ≠ q2) :
    (hs.map (fun p => if p.1 == k2 then (p.1, v) else p)).find?
        (fun p => p.1 == q2)
      = hs.find? (fun p => p.1 == q2) := by
  induction hs with
  | nil => rfl
  | cons p ps ih =>
      by_cases hp : (p.1 == q2) = true
      · have hk : (p.1 == k2) = false := by
          have hpq : p.1 = q2 := beq_iff_eq.mp hp
          rw [hpq]
          exact beq_eq_false_iff_ne.mpr (fun hc => h hc.symm)
        simp [List.find?, hp, hk]
      · have hmapped : ((if (p.1 == k2) = true then (p.1, v) else p).1 == q2) = false := by
          by_cases hk : (p.1 == k2) = true
          · rw [if_pos hk]
            exact Bool.of_not_eq_true hp
          · rw [if_neg hk]
            exact Bool.of_not_eq_true hp
        simp only [List.map_cons, List.find?]
        rw [hmapped, Bool.of_not_eq_true hp]
        exact ih

theorem find?_append_single_ne (hs : List (String × String)) (k2 v q2 : String)
    (h : k2 ≠ q2) :
    (hs ++ [(k2, v)]).find? (fun p => p.1 == q2)
      = hs.find? (fun p => p.1 == q2) := by
  induction hs with
  | nil =>
      simp only [List.nil_append, List.find?]
      rw [beq_eq_false_iff_ne.mpr h]
  | cons p ps ih =>
      by_cases hp : (p.1 == q2) = true
      · simp [List.find?, hp]
      · simp only [List.cons_append, List.find?]
        rw [Bool.of_not_eq_true hp]
        exact ih

/-- `headerSet` with a name other than `q` leaves `headerGet _ q`
unchanged. -/
theorem headerGet_headerSet_ne (hs : List (String × String)) (k v q : String)
    (h : lowerName k ≠ lowerName q) :
    headerGet (headerSet hs k v) q = headerGet hs q := by
  unfold headerGet headerSet
  by_cases hany : (hs.any (fun p => p.1 == lowerName k)) = true
  · rw [if_pos hany, find?_after_set hs (lowerName k) v (lowerName q) h]
  · rw [if_neg hany, find?_append_single_ne hs (lowerName k) v (lowerName q) h]

/-- The retry merge never changes the result of looking up `authorization`. -/
theorem mergeHeadersRetry_get_auth (callerHeaders : List (String × String)) :
    ∀ newHeaders : List (String × String),
    headerGet (mergeHeadersRetry newHeaders callerHeaders) "authorization"
      = headerGet newHeaders "authorization" := by
  induction callerHeaders with
  | nil => intro nh; rfl
  | cons kv rest ih =>
      intro nh
      show headerGet (mergeHeadersRetry
        (if lowerName kv.1 == "authorization" then nh
         else headerSet nh kv.1 kv.2) rest) "authorization"
        = headerGet nh "authorization"
      by_cases h : (lowerName kv.1 == "authorization") = true
      · rw [if_pos h]
        exact ih nh
      · rw [if_neg h]
        rw [ih (headerSet nh kv.1 kv.2)]
        apply headerGet_headerSet_ne
        have hlow : lowerName "authorization" = "authorization" := by decide
        rw [hlow]
        exact beq_eq_false_iff_ne.mp (Bool.of_not_eq_true h)

theorem handleFetchErrorMessage_404_decomp (extracted : String) :
    handleFetchErrorMessage 404 extracted
      = ("JIRA API Error" ++ (if extracted != "" then ": " ++ extracted else "")
          ++ " ") ++ "(Status: 404)" := by
  unfold handleFetchErrorMessage
  have h404 : toString (404 : Nat) = "404" := rfl
  rw [h404]
  simp only [String.append_assoc]
  congr 1

theorem containsStr_handleFetch404 (extracted : String) :
    containsStr (handleFetchErrorMessage 404 extracted) "(Status: 404)" = true := by
  unfold containsStr
  rw [decide_eq_true_eq, handleFetchErrorMessage_404_decomp]
  refine ⟨("JIRA API Error"
    ++ (if extracted != "" then ": " ++ extracted else "") ++ " ").data, [], ?_⟩
  rw [List.append_nil, ← String.data_append]

/-! # Claim theorems -/

/-- C1: the claim states that a request failing with 401/403 whose reissued
attempt (after a forced refresh) also fails surfaces the retried attempt's
failure. The code does the opposite: the `handleFetchError(retryResponse)`
throw sits inside the try/catch around the refresh-and-retry block, whose
catch swallows it, so control falls through to the common error handling of
the original response and the original attempt's error is raised. This
theorem evaluates the embedding at the failing input (original 401 with
extracted message "Unauthorized", successful refresh, retry 500 with
extracted message "boom") and shows the raised error is the original
attempt's message, which differs from the retried attempt's message. -/
theorem fetchWithRetry_original_error_on_failed_retry :
    fetchWithRetry true
        { status := 401, errMessage := "Unauthorized", jsonBody := (0 : Nat) }
        (RefreshResult.refreshOk "fresh-token")
        { status := 500, errMessage := "boom", jsonBody := (0 : Nat) } false
      = Except.error "JIRA API Error: Unauthorized (Status: 401)"
    ∧ handleFetchErrorMessage 500 "boom" = "JIRA API Error: boom (Status: 500)"
    ∧ "JIRA API Error: Unauthorized (Status: 401)"
        ≠ "JIRA API Error: boom (Status: 500)" :=
  ⟨rfl, rfl, by decide⟩

/-- C3 counterexample: the claim says caller-supplied headers never override
the Authorization header on the first attempt as well as on the retry. On
the first attempt the merge `headers.set(key, value)` has no exclusion, so a
caller-supplied Authorization header replaces the strategy-provided one:
with the strategy headers carrying `authorization: Bearer strategy-token`
and the caller supplying `Authorization: Basic caller-credentials`, the
outgoing Authorization header is the caller's value. -/
theorem mergeHeadersFirstAttempt_auth_override_counterexample :
    headerGet (mergeHeadersFirstAttempt exStrategyHeaders exCallerHeaders)
        "Authorization" = some "Basic caller-credentials"
    ∧ headerGet exStrategyHeaders "Authorization" = some "Bearer strategy-token"
    ∧ some "Basic caller-credentials" ≠ some "Bearer strategy-token" :=
  ⟨by decide, by decide, by decide⟩

/-- C3 amended: on the post-refresh retry, merging caller-supplied headers
never overrides the Authorization header — it always equals the
strategy-provided fresh bearer header; on the first attempt caller-supplied
headers are merged with plain set semantics and can override it (see the
counterexample). -/
theorem mergeHeadersRetry_preserves_auth_header :
    ∀ (newAccessToken : String) (callerHeaders : List (String × String)),
    headerGet (mergeHeadersRetry (rebuildRetryHeaders newAccessToken)
        callerHeaders) "authorization"
      = some ("Bearer " ++ newAccessToken) := by
  intro tok caller
  rw [mergeHeadersRetry_get_auth]
  rfl

/-- C6: for every formatted-text tree consisting only of text and container
nodes, text extraction returns exactly the separator-free concatenation of
all leaf text values in document order, depth-first. -/
theorem extractTextContent_concats_leaf_texts :
    ∀ l : List AdfNode, textParaForest l = true →
    extractTextContent l = specConcat (specLeafTextsForest l) :=
  extractText_forest_concat

/-- C6 witness: the theorem applied to a concrete two-paragraph tree. -/
theorem extractTextContent_concats_leaf_texts_witness :
    textParaForest exC6Forest = true
    ∧ extractTextContent exC6Forest = specConcat (specLeafTextsForest exC6Forest) :=
  ⟨by decide, extractTextContent_concats_leaf_texts exC6Forest (by decide)⟩

/-- C7: mention extraction emits at most one entry per issue key (the key
list of the output has no duplicates), in first-occurrence order of the keys
collected in document order, and every entry carries kind mention, the given
source and the given commentId; on the concrete tree with two inline-card
nodes for TEST-2 plus a free-text TEST-2, exactly one TEST-2 entry
remains. -/
theorem extractIssueMentions_dedup_by_key :
    (∀ (content : List AdfNode) (src : RefSource) (cid : Option String),
      ((extractIssueMentions content src cid).map (fun m => m.key)).Nodup
      ∧ (extractIssueMentions content src cid).map (fun m => m.key)
          = firstOcc [] ((collectFromList src cid content).map (fun m => m.key))
      ∧ (extractIssueMentions content src cid).all (fun m =>
          decide (m.type = RefType.mention) && decide (m.source = src)
            && (m.commentId == cid)) = true)
    ∧ extractIssueMentions exC7Forest RefSource.comment (some "c-1")
        = [mkMention "TEST-2" RefSource.comment (some "c-1"),
           mkMention "TEST-4" RefSource.comment (some "c-1")] :=
  ⟨fun content src cid =>
    ⟨extractIssueMentions_keys_nodup content src cid,
     extractIssueMentions_keys content src cid,
     extractIssueMentions_all_fields content src cid⟩,
   by decide⟩

/-- C8: a single-issue fetch receiving a 404 raises an issue-not-found error
whose message carries the requested identifier: the error message built by
`handleFetchError` for a 404 always contains "(Status: 404)", so the catch
clause of `getIssueWithComments` maps it to "Issue not found: " followed by
the identifier; in particular the input TEST-1 yields an error text
containing "Issue not found: TEST-1". -/
theorem getIssueWithComments_404_issue_not_found :
    (∀ (issueId extracted : String),
      recoverIssueFetchError issueId (handleFetchErrorMessage 404 extracted)
        = "Issue not found: " ++ issueId)
    ∧ containsStr
        (recoverIssueFetchError "TEST-1" (handleFetchErrorMessage 404 ""))
        "Issue not found: TEST-1" = true := by
  constructor
  · intro issueId extracted
    unfold recoverIssueFetchError
    rw [if_pos (containsStr_handleFetch404 extracted)]
  · decide

/-- C9: the credential-store load operation never throws (the embedding is
total, the source wraps its whole body in a catch returning null) and it
returns a stored state exactly when the file parses to an object with both
token fields present and non-empty — it agrees pointwise with the contract
stated by the spec. -/
theorem loadStoredTokens_never_throws_contract :
    ∀ fileState : TokenFileState,
    loadStoredTokens fileState = specLoadContract fileState := by
  intro f
  cases f with
  | missing => rfl
  | readError => rfl
  | parseError => rfl
  | parsed t =>
      unfold loadStoredTokens specLoadContract
      by_cases ha : jsTruthy t.access_token <;>
        by_cases hr : jsTruthy t.refresh_token <;> simp [ha, hr]

/-- C10: building the one-paragraph document from any text and extracting
its text content yields the text back unchanged, so the cleaned body of
`addCommentToIssue` equals the submitted comment text whenever the service
echoes the submitted document back. -/
theorem createAdfFromBody_extract_roundtrip :
    (∀ t : String, extractTextContent (createAdfFromBody t).content = t)
    ∧ (∀ (t : String) (response : JiraCommentResponse),
        response.body = createAdfFromBody t →
        (cleanAddCommentResponse response).body = t) :=
  ⟨adf_roundtrip,
   fun t response h => by
     show extractTextContent response.body.content = t
     rw [h]
     exact adf_roundtrip t⟩

/-- C10 witness: the round-trip at the concrete echoed response. -/
theorem createAdfFromBody_extract_roundtrip_witness :
    exCommentResponse.body = createAdfFromBody "Deployed to staging"
    ∧ (cleanAddCommentResponse exCommentResponse).body = "Deployed to staging" :=
  ⟨rfl, createAdfFromBody_extract_roundtrip.2 "Deployed to staging"
          exCommentResponse rfl⟩

/-- C2: a successful token refresh returns the new access token only
together with a token-file post-state persisting exactly the new
access+refresh pair — the persist happens before the return — and a storage
write failure makes the refresh call throw, never returning the new access
token. -/
theorem refreshAndStoreTokens_persists_before_return :
    (∀ (tokenResponse : Except String TokenData) (writeError : Option String)
       (now : Int) (tok : String) (stored : ParsedTokens),
       refreshAndStoreTokens tokenResponse writeError now
           = Except.ok (tok, stored) →
       writeError = none ∧ stored.access_token = some tok ∧
       ∃ td, tokenResponse = Except.ok td ∧ td.access_token = some tok ∧
             stored.refresh_token = td.refresh_token)
    ∧ (∀ (tokenResponse : Except String TokenData) (e : String) (now : Int)
         (tok : String) (stored : ParsedTokens),
         refreshAndStoreTokens tokenResponse (some e) now
           ≠ Except.ok (tok, stored)) := by
  constructor
  · intro tr we now tok stored h
    unfold refreshAndStoreTokens at h
    cases tr with
    | error e => simp at h
    | ok td =>
        by_cases hv : (!(jsTruthy td.access_token) || !(jsTruthy td.refresh_token)) = true
        · simp only [if_pos hv] at h
          simp at h
        · simp only [if_neg hv] at h
          cases hwe : we with
          | some e =>
              rw [hwe] at h
              simp [storeTokens] at h
          | none =>
              rw [hwe] at h
              simp only [storeTokens] at h
              simp at h
              obtain ⟨htok, hstored⟩ := h
              have hboth : jsTruthy td.access_token = true
                  ∧ jsTruthy td.refresh_token = true := by
                have hv2 := Bool.of_not_eq_true hv
                simp at hv2
                exact hv2
              cases hat : td.access_token with
              | none => rw [hat] at hboth; exact absurd hboth.1 (by simp [jsTruthy])
              | some s =>
                  refine ⟨rfl, ?_, td, rfl, ?_, ?_⟩
                  · rw [← hstored]
                    rw [hat] at htok ⊢
                    simp at htok
                    rw [htok]
                  · rw [hat] at htok ⊢
                    simp at htok
                    rw [htok]
                  · rw [← hstored]
  · intro tr e now tok stored h
    unfold refreshAndStoreTokens at h
    cases tr with
    | error e2 => simp at h
    | ok td =>
        by_cases hv : (!(jsTruthy td.access_token) || !(jsTruthy td.refresh_token)) = true
        · simp only [if_pos hv] at h
          simp at h
        · simp only [if_neg hv] at h
          simp [storeTokens] at h

/-- C2 witness: the theorem applied at a concrete successful refresh. -/
theorem refreshAndStoreTokens_persists_before_return_witness :
    refreshAndStoreTokens (Except.ok exTokenData) none 1000000
      = Except.ok ("new-access",
          ParsedTokens.mk (some "new-access") (some "new-refresh")
            (some 4540000) none none)
    ∧ ((none : Option String) = none
       ∧ (ParsedTokens.mk (some "new-access") (some "new-refresh")
            (some 4540000) none none).access_token = some "new-access"
       ∧ ∃ td, (Except.ok exTokenData : Except String TokenData) = Except.ok td
            ∧ td.access_token = some "new-access"
            ∧ (ParsedTokens.mk (some "new-access") (some "new-refresh")
                 (some 4540000) none none).refresh_token = td.refresh_token) :=
  ⟨rfl, refreshAndStoreTokens_persists_before_return.1
          (Except.ok exTokenData) none 1000000 "new-access"
          (ParsedTokens.mk (some "new-access") (some "new-refresh")
            (some 4540000) none none) rfl⟩

/-- C4: for every raw issue and its cleaned comments, the assembled
relationship list is exactly the description-derived mentions, then the
formal-link group mapped 1:1 from the source link list, then every comment's
mentions in comment order — a plain concatenation, so no deduplication
happens between the groups — and every comment-derived mention carries kind
mention, source comment and the owning comment's id. -/
theorem relatedIssues_assembly_order :
    ∀ (rawIssue : RawIssue) (rawComments : List RawComment),
    (assembleIssueWithComments rawIssue rawComments).relatedIssues
      = descriptionMentions rawIssue ++ formalLinkRefs rawIssue
          ++ (rawComments.map cleanComment).flatMap (fun c => c.mentions)
    ∧ ((rawComments.map cleanComment).all (fun c => c.mentions.all (fun m =>
        decide (m.type = RefType.mention) && decide (m.source = RefSource.comment)
          && (m.commentId == some c.id)))) = true := by
  intro raw rcs
  constructor
  · rw [assembleIssueWithComments_relatedIssues, cleanIssue_relatedIssues,
      List.append_assoc]
  · rw [List.all_eq_true]
    intro c hc
    rcases List.mem_map.mp hc with ⟨rc, _, hcc⟩
    subst hcc
    show ((match rc.bodyContent with
           | some content =>
               extractIssueMentions content RefSource.comment (some rc.id)
           | none => []).all (fun m =>
        decide (m.type = RefType.mention) && decide (m.source = RefSource.comment)
          && (m.commentId == some rc.id))) = true
    cases hb : rc.bodyContent with
    | none => rfl
    | some content =>
        exact extractIssueMentions_all_fields content RefSource.comment (some rc.id)

/-- C5 counterexample: for the raw issue `c5RawIssue` — one formal
"is blocked by" link to TEST-2 and a description mentioning the different
key TEST-3 — the assembled list is the mention entry FIRST and the
formal-link entry SECOND, refuting the claimed relative order (formal-link
before mention). -/
theorem relatedIssues_mention_before_link_counterexample :
    (cleanIssue c5RawIssue).relatedIssues = [c5Mention, linkToRef c5Link]
    ∧ c5Mention.type = RefType.mention
    ∧ (linkToRef c5Link).type = RefType.link
    ∧ (linkToRef c5Link).relationship = some "is blocked by" := by
  refine ⟨by decide, rfl, rfl, by decide⟩

/-- C5 amended: for a raw issue with one formal "is blocked by" link and a
description mentioning one (different) issue key, the assembled
relationship list contains exactly one mention entry and one formal-link
entry with relationship "is blocked by", with the MENTION entry before the
formal-link entry, and no merging between them. -/
theorem relatedIssues_single_link_and_mention_order :
    ∀ (raw : RawIssue) (dc : List AdfNode) (link : RawIssueLink)
      (linked : RawLinkedIssue) (m : RelatedIssue),
    raw.descriptionContent = some dc →
    extractIssueMentions dc RefSource.description none = [m] →
    raw.issuelinks = some [link] →
    link.inwardIssue = some linked →
    link.typeInward = some "is blocked by" →
    (cleanIssue raw).relatedIssues = [m, linkToRef link]
    ∧ m.type = RefType.mention
    ∧ (linkToRef link).type = RefType.link
    ∧ (linkToRef link).relationship = some "is blocked by"
    ∧ (linkToRef link).key = linked.key := by
  intro raw dc link linked m hdc hm hl hin hrel
  refine ⟨?_, ?_, rfl, ?_, ?_⟩
  · rw [cleanIssue_relatedIssues]
    unfold descriptionMentions formalLinkRefs
    rw [hdc, hl]
    show extractIssueMentions dc RefSource.description none
        ++ List.map linkToRef ((some [link]).getD []) = [m, linkToRef link]
    rw [hm]
    rfl
  · have hmem : m ∈ extractIssueMentions dc RefSource.description none := by
      rw [hm]
      exact List.mem_singleton_self m
    have hf := extractIssueMentions_mem_fields dc RefSource.description none m hmem
    rw [hf]
    rfl
  · show jsOrStr link.typeInward link.typeOutward = some "is blocked by"
    rw [hrel]
    rfl
  · show ((jsOrOpt link.inwardIssue link.outwardIssue).map
      (fun i => i.key)).getD "" = linked.key
    rw [hin]
    rfl

/-- C5 witness: the amended theorem applied at the concrete raw issue. -/
theorem relatedIssues_single_link_and_mention_order_witness :
    (c5RawIssue.descriptionContent = some c5Description
     ∧ extractIssueMentions c5Description RefSource.description none = [c5Mention]
     ∧ c5RawIssue.issuelinks = some [c5Link]
     ∧ c5Link.inwardIssue
         = some (RawLinkedIssue.mk "TEST-2" (some "Blocking issue"))
     ∧ c5Link.typeInward = some "is blocked by")
    ∧ ((cleanIssue c5RawIssue).relatedIssues = [c5Mention, linkToRef c5Link]
       ∧ c5Mention.type = RefType.mention
       ∧ (linkToRef c5Link).type = RefType.link
       ∧ (linkToRef c5Link).relationship = some "is blocked by"
       ∧ (linkToRef c5Link).key
           = (RawLinkedIssue.mk "TEST-2" (some "Blocking issue")).key) :=
  ⟨⟨rfl, by decide, rfl, rfl, rfl⟩,
   relatedIssues_single_link_and_mention_order c5RawIssue c5Description c5Link
     (RawLinkedIssue.mk "TEST-2" (some "Blocking issue")) c5Mention
     rfl (by decide) rfl rfl rfl⟩
